import Mathlib

/-!
# Verification of the AI Log Analyzer ingestion/classification/clustering pipeline

A shallow embedding, in Lean 4, of the pure decision logic of the pipeline:

* `src/pipeline/components/clustering.py` (`cluster_files`)
* `src/pipeline/components/orchestrator.py` (`determine_category`)
* `src/pipeline/core/ingestor.py` (`UniversalIngestor.process_file`)
* `src/pipeline/models/file_classifier.py` (`FileTypeClassifier.classify_file`)
* `src/pipeline/models/summarizer.py` (`LogSummarizer.summarize_content` / `summarize_file`)
* `src/pipeline/core/metadata.py` (`generate_metadata_report`, `update_master_report`)
* `src/main.py` (`run_pipeline`, ingestion/routing loop)
* `src/pipeline/agent/tools/base_tool.py` (`_resolve_path`)

Python strings are embedded as `List Char`; machine-learned capabilities
(zero-shot classifier, embedder, HDBSCAN) are abstracted as function
parameters, since the repository consumes them as black boxes.  File-system
effects (reads, moves) are made explicit as data returned by the model.
-/

/-- Python strings are modelled as lists of characters. -/
abbrev Str := List Char

/-- ASCII lowercasing of a single character (model of `str.lower` per char;
the repository only ever lowercases ASCII data). -/
def lowerChar (c : Char) : Char :=
  if 65 ≤ c.toNat ∧ c.toNat ≤ 90 then Char.ofNat (c.toNat + 32) else c

/-- Model of Python `str.lower()`. -/
def pyLower (s : Str) : Str := s.map lowerChar

/-- `isPrefixL pat s` : does `pat` occur at the start of `s`? -/
def isPrefixL : Str → Str → Bool
  | [], _ => true
  | _ :: _, [] => false
  | a :: asx, b :: bs => a == b && isPrefixL asx bs

/-- Model of Python `pat in s` (substring containment). -/
def containsL (pat : Str) : Str → Bool
  | [] => isPrefixL pat []
  | c :: cs => isPrefixL pat (c :: cs) || containsL pat cs

/-- Model of Python `s.endswith(pat)`. -/
def endsWithL (pat s : Str) : Bool := isPrefixL pat.reverse s.reverse

/- ## Clustering — `src/pipeline/components/clustering.py`

`cluster_files(file_summaries, embeddings)` guards HDBSCAN behind a minimum
point count and builds a three-column pandas DataFrame.  The `file_summaries`
dict is embedded as an association list in insertion order; HDBSCAN's
`fit_predict` is an abstract parameter.  `pd.DataFrame` raises when the
columns have different lengths, so the constructor returns an `Option`. -/

/-- The DataFrame built by `cluster_files`: columns `file_name`, `summary`,
`cluster_id`, all of one common length. -/
structure ClusterFrame where
  file_name : List Str
  summary : List Str
  cluster_id : List Int

/-- `pd.DataFrame({...})`: succeeds only when all columns have equal length. -/
def mkClusterFrame (names summaries : List Str) (labels : List Int) :
    Option ClusterFrame :=
  if names.length = summaries.length ∧ summaries.length = labels.length then
    some ⟨names, summaries, labels⟩
  else
    none

/-- Embedding of `cluster_files` (clustering.py lines 5–23).
`hdbscanFitPredict` abstracts `hdbscan.HDBSCAN(...).fit_predict`. -/
def cluster_files (hdbscanFitPredict : List (List ℚ) → List Int)
    (file_summaries : List (Str × Str)) (embeddings : List (List ℚ)) :
    Option ClusterFrame :=
  let labels :=
    if embeddings.length < 3 then
      List.replicate embeddings.length (-1)
    else
      hdbscanFitPredict embeddings
  mkClusterFrame (file_summaries.map Prod.fst) (file_summaries.map Prod.snd)
    labels

/- ## Category resolution — `src/pipeline/components/orchestrator.py`

`determine_category(text)` lowercases the summary, scores it against the
`DOMAIN_KEYWORDS` table from `src/pipeline/config/settings.py` (strictly
greater score wins, so the first domain reaching the maximum is kept), and
when no keyword matches falls back to dynamic extraction: the portion after
the last occurrence of the literal `"keywords:"`, tokenized by the regex
`[a-z]{3,}`, filtered by a stop-word list, first survivor wins, else the
sentinel `unstructured_log`. -/

/-- `DOMAIN_KEYWORDS` from settings.py lines 27–32, in declaration order. -/
def DOMAIN_KEYWORDS : List (Str × List Str) :=
  [("agreement".data,
    ["contract".data, "signed".data, "nda".data, "terms".data,
     "agreement".data]),
   ("system_log".data,
    ["cpu".data, "disk".data, "kernel".data, "boot".data, "service".data,
     "windows".data, "linux".data, "server".data]),
   ("app_log".data,
    ["login".data, "http".data, "api".data, "json".data, "exception".data,
     "stacktrace".data, "request".data, "response".data]),
   ("governance_log".data,
    ["audit".data, "policy".data, "compliance".data, "gdpr".data,
     "security".data, "access".data])]

/-- `sum(1 for term in keys if term in text)` (orchestrator.py line 26). -/
def domainScore (text : Str) (keys : List Str) : Nat :=
  (keys.filter fun term => containsL term text).length

/-- The domain-matching loop of `determine_category` (orchestrator.py lines
21–29): running `(best_match, highest_score)` pair, strict-`>` update. -/
def bestDomainLoop (text : Str) :
    List (Str × List Str) → Option Str × Nat → Option Str × Nat
  | [], acc => acc
  | (cat, keys) :: rest, (best, hi) =>
      let score := domainScore text keys
      if hi < score then bestDomainLoop text rest (some cat, score)
      else bestDomainLoop text rest (best, hi)

/-- The suffix of `s` after the rightmost occurrence of `marker`, or `none`
when `marker` does not occur.  The markers used by the code (`"keywords:"`,
and the claim's `"keywords"`) have no self-overlap, so the rightmost
occurrence is exactly the last separator of Python's left-to-right
`s.split(marker)`. -/
def afterLastScan (marker : Str) : Str → Option Str
  | [] => none
  | c :: cs =>
      match afterLastScan marker cs with
      | some suffix => some suffix
      | none =>
          if isPrefixL marker (c :: cs) then
            some ((c :: cs).drop marker.length)
          else none

/-- Model of Python `s.split(marker)[-1]`: the suffix after the last
occurrence of `marker`, or `s` itself when `marker` is absent. -/
def afterLast (marker s : Str) : Str := (afterLastScan marker s).getD s

/-- An ASCII lowercase letter, the character class of the regex `[a-z]`. -/
def isLowerAZ (c : Char) : Bool := 97 ≤ c.toNat && c.toNat ≤ 122

/-- Accumulator pass for `tokenRuns`: `cur` is the current run, reversed. -/
def tokenRunsAux : Str → Str → List Str
  | cur, [] => if cur.isEmpty then [] else [cur.reverse]
  | cur, c :: cs =>
      if isLowerAZ c then tokenRunsAux (c :: cur) cs
      else if cur.isEmpty then tokenRunsAux [] cs
      else cur.reverse :: tokenRunsAux [] cs

/-- Maximal runs of `[a-z]` characters, in order (the matches of the regex
`[a-z]+`; `re.findall(r'[a-z]{3,}', s)` is these runs kept when ≥ 3 long). -/
def tokenRuns (s : Str) : List Str := tokenRunsAux [] s

/-- The category-naming stop words (orchestrator.py lines 48–51). -/
def categoryStopWords : List Str :=
  ["total".data, "entries".data, "keywords".data, "summary".data,
   "unknown".data, "file".data, "log".data, "data".data, "text".data,
   "error".data, "info".data, "warn".data, "fail".data, "failed".data,
   "sample".data]

/-- The dynamic-extraction fallback of `determine_category` given the
lowercased text and the split marker (orchestrator.py lines 36–61). -/
def dynamicExtract (marker lowText : Str) : Str :=
  let relevant :=
    if containsL marker lowText then afterLast marker lowText else lowText
  let words := (tokenRuns relevant).filter fun w => 3 ≤ w.length
  match words.find? (fun w => !(categoryStopWords.contains w)) with
  | some w => w
  | none => "unstructured_log".data

/-- Embedding of `determine_category` (orchestrator.py lines 15–61). -/
def determine_category (text0 : Str) : Str :=
  let text := pyLower text0
  match (bestDomainLoop text DOMAIN_KEYWORDS (none, 0)).1 with
  | some cat => cat
  | none => dynamicExtract "keywords:".data text

/-- Maximum keyword-hit count over the domain table, on lowercased text. -/
def maxDomainScore (lowText : Str) : Nat :=
  (DOMAIN_KEYWORDS.map fun p => domainScore lowText p.2).foldr max 0

/-- Spec-side reading of the claim: the first domain in table-declaration
order whose hit count equals the (positive) maximum hit count. -/
def specDomainChoice (lowText : Str) : Option Str :=
  if maxDomainScore lowText = 0 then none
  else
    (DOMAIN_KEYWORDS.find?
      fun p => domainScore lowText p.2 == maxDomainScore lowText).map Prod.fst

/-- Spec-side reading of the C6 claim, verbatim: the marker is the bare word
`"keywords"` (no colon), the rest as in the fallback. -/
def claimExtractCategory (lowText : Str) : Str :=
  dynamicExtract "keywords".data lowText

/- ## Rename-chain path resolution — `src/pipeline/agent/tools/base_tool.py`

`BaseLogTool._resolve_path(filename)` loads the ledger CSV into a DataFrame
and walks rename links: repeatedly match `Original_Filename` (exact, then
case-insensitive substring), take the most recent matching row, and follow
its `Stored_Filename` when that name reappears as `Original_Filename` of a
later row; a visited set guards against cycles.  The DataFrame is embedded
as a list of rows in index order; the `while True` loop is embedded with
explicit fuel, `none` meaning the fuel ran out before the loop exited. -/

/-- One ledger row as read from the metadata report CSV. -/
structure LedgerRow where
  original : Str
  stored : Str
  finalPath : Str
  rawPath : Str

/-- Index of the last element satisfying `p` (model of `match.iloc[-1]`,
`row.name` being the original DataFrame index; also used for the recency
lookup of `update_master_report`). -/
def lastIdxWhere {α : Type} (p : α → Bool) : List α → Option Nat
  | [] => none
  | r :: rest =>
      match lastIdxWhere p rest with
      | some i => some (i + 1)
      | none => if p r then some 0 else none

/-- The match step of `_resolve_path` (base_tool.py lines 32–37): exact match
on `Original_Filename` first, else case-insensitive substring containment. -/
def findMatch (df : List LedgerRow) (current : Str) : Option Nat :=
  match lastIdxWhere (fun r => r.original == current) df with
  | some i => some i
  | none =>
      lastIdxWhere (fun r => containsL (pyLower current) (pyLower r.original))
        df

/-- The `while True` loop of `_resolve_path` (base_tool.py lines 27–61),
with explicit fuel.  Result `none`: fuel exhausted; `some none`: filename not
found; `some (some (i, row))`: the loop exited with `final_row = row` at
DataFrame index `i`. -/
def resolveLoop (df : List LedgerRow) :
    Nat → Str → List Str → Option (Nat × LedgerRow) →
      Option (Option (Nat × LedgerRow))
  | 0, _, _, _ => none
  | fuel + 1, current, visited, finalRow =>
      if visited.contains current then some finalRow
      else
        let visited := current :: visited
        match findMatch df current with
        | none =>
            if visited.length == 1 then some none else some finalRow
        | some i =>
            match df[i]? with
            | none => some finalRow
            | some row =>
                let next := row.stored
                if next == "N/A".data || next == current then
                  some (some (i, row))
                else if (df.drop (i + 1)).any (fun r => r.original == next)
                    then
                  resolveLoop df fuel next visited (some (i, row))
                else some (some (i, row))

/-- Embedding of `_resolve_path`: run the loop, then prefer an existing
`Final_Path` over an existing `Raw_Storage_Path` (base_tool.py lines 63–75).
`pathExists` abstracts `os.path.exists`. -/
def resolve_path (df : List LedgerRow) (pathExists : Str → Bool)
    (fuel : Nat) (filename : Str) : Option (Option Str) :=
  match resolveLoop df fuel filename [] none with
  | none => none
  | some none => some none
  | some (some (_, row)) =>
      if row.finalPath ≠ "Pending".data ∧ pathExists row.finalPath then
        some (some row.finalPath)
      else if row.rawPath ≠ "N/A".data ∧ pathExists row.rawPath then
        some (some row.rawPath)
      else some none

/- ## File classification — `src/pipeline/models/file_classifier.py`

`FileTypeClassifier.classify_file` tries a fast-path heuristic for `.log`
files, then the zero-shot model (`_classify_with_ai`), else keyword fallback
(`_classify_with_fallback`).  The Hugging Face pipeline is abstracted as
`zeroShot : Str → Option (Str × ℚ)` returning the top label and score
(`none` = the model call raised); confidences are embedded as rationals. -/

/-- A whitespace character for Python `str.strip()`. -/
def isSpaceChar (c : Char) : Bool :=
  c == ' ' || c == '\t' || c == '\n' || c == '\r' ||
    c.toNat == 11 || c.toNat == 12

/-- Model of Python `s.strip()`. -/
def pyStrip (s : Str) : Str :=
  ((s.dropWhile isSpaceChar).reverse.dropWhile isSpaceChar).reverse

/-- Model of Python `filename.split('.')[-1].lower()` (the whole name when
there is no dot), as used by both the classifier and the ingestor. -/
def extOf (filename : Str) : Str := pyLower (afterLast ".".data filename)

/-- The `.log` fast-path marker tokens (file_classifier.py line 93). -/
def fastPathLogIndicators : List Str :=
  ["INFO".data, "DEBUG".data, "ERROR".data, "WARN".data, "timestamp".data,
   "traceback".data]

/-- `_normalize_category` (file_classifier.py lines 130–157). -/
def normalize_category (category : Str) : Str :=
  let cl := pyLower category
  if containsL "log".data cl then "log".data
  else if containsL "curriculum vitae".data cl then "cv".data
  else if containsL "resume".data cl then "resume".data
  else if containsL "invoice".data cl then "invoice".data
  else if containsL "report".data cl then "report".data
  else if containsL "contract".data cl || containsL "agreement".data cl then
    "contract".data
  else pyLower (category.map fun c => if c == ' ' then '_' else c)

/-- `_classify_with_ai` (file_classifier.py lines 103–128): classify the
stripped 2000-character prefix; a raised exception (`zeroShot = none`)
degrades to `("other_document", 0.0)`. -/
def classify_with_ai (zeroShot : Str → Option (Str × ℚ)) (content : Str) :
    Str × ℚ :=
  let sample := pyStrip (content.take 2000)
  if sample.isEmpty then ("other_document".data, 1/2)
  else
    match zeroShot sample with
    | some (label, score) => (normalize_category label, score)
    | none => ("other_document".data, 0)

/-- The fallback keyword lists (file_classifier.py lines 167–182). -/
def fallbackLogKeywords : List Str :=
  ["error".data, "warning".data, "info".data, "debug".data,
   "exception".data, "stacktrace".data, "timestamp".data, "kernel".data,
   "system".data, "service".data, "src_ip".data, "dst_ip".data,
   "source ip".data, "destination ip".data, "protocol".data, "packet".data,
   "src ip".data, "dst ip".data, "proto".data, "flags".data,
   "duration".data, "bytes".data, "user_id".data, "session_id".data,
   "access_log".data, "auth_failed".data]

def fallbackCvKeywords : List Str :=
  ["curriculum vitae".data, "education".data, "work experience".data,
   "skills".data, "professional summary".data, "employment history".data,
   "qualifications".data]

def fallbackResumeKeywords : List Str :=
  ["resume".data, "objective".data, "career summary".data,
   "references available".data]

def fallbackInvoiceKeywords : List Str :=
  ["invoice".data, "bill".data, "payment".data, "amount due".data,
   "total".data, "tax".data]

/-- Python `max(scores, key=scores.get)`: the first key attaining the
maximum value, strict-`>` replacement while scanning. -/
def pyMaxKeyLoop (acc : Str × Nat) : List (Str × Nat) → Str × Nat
  | [] => acc
  | (k, v) :: rest =>
      if acc.2 < v then pyMaxKeyLoop (k, v) rest else pyMaxKeyLoop acc rest

/-- `_classify_with_fallback` (file_classifier.py lines 159–210). -/
def classify_with_fallback (content filename : Str) : Str × ℚ :=
  let content_lower := pyLower (content.take 2000)
  let score := fun (kws : List Str) =>
    (kws.filter fun kw => containsL kw content_lower).length
  let scores : List (Str × Nat) :=
    [("log".data, score fallbackLogKeywords),
     ("cv".data, score fallbackCvKeywords),
     ("resume".data, score fallbackResumeKeywords),
     ("invoice".data, score fallbackInvoiceKeywords)]
  let best := pyMaxKeyLoop ("log".data, score fallbackLogKeywords)
    (scores.drop 1)
  if 0 < (scores.map Prod.snd).foldr max 0 then
    (best.1, min ((best.2 : ℚ) / 10) (9/10))
  else if !filename.isEmpty && (extOf filename == "log".data ||
      extOf filename == "txt".data) then
    ("log".data, 3/5)
  else ("other_document".data, 1/2)

/-- Embedding of `classify_file` (file_classifier.py lines 77–101).
`modelLoaded` is `self.classifier is not None` (the Hugging Face pipeline
loaded successfully). -/
def classify_file (modelLoaded : Bool) (zeroShot : Str → Option (Str × ℚ))
    (content filename : Str) : Str × ℚ :=
  if endsWithL ".log".data (pyLower filename) &&
      fastPathLogIndicators.any (fun ind => containsL ind content) then
    ("log".data, 1)
  else if modelLoaded && !content.isEmpty then
    classify_with_ai zeroShot content
  else
    classify_with_fallback content filename

/- ## Ingestion — `src/pipeline/core/ingestor.py`

`UniversalIngestor.process_file` reads a file according to its extension
(DataFrame for tabular formats, text for `txt`/`log`/`pdf`), then resolves
the file type through the classifier, a CSV-column heuristic, and the
low-confidence downgrade guard.  Disk reads are abstract: `readTable` /
`readText` return `none` when the read raises (the `(None, "error")` path).
A pandas DataFrame is abstracted by its column names, row count and the
rendered `head()` samples that the code feeds to the models. -/

/-- Abstraction of a pandas DataFrame, keeping what the pipeline consumes. -/
structure DFrame where
  columns : List Str
  nrows : Nat
  head5Str : Str
  head10Str : Str

/-- Content returned by `process_file`: text or a DataFrame. -/
inductive PyContent
  | text (s : Str)
  | table (df : DFrame)

/-- `text_to_classify` (ingestor.py lines 92–97): the raw string, or the
rendering of the first 5 rows for structured data. -/
def textToClassify : PyContent → Str
  | .text s => s
  | .table df => df.head5Str

/-- The CSV-column log indicators (ingestor.py lines 113–114). -/
def logColumnIndicators : List Str :=
  ["timestamp".data, "date".data, "time".data, "level".data,
   "severity".data, "msg".data, "message".data, "src ip".data,
   "dst ip".data, "source".data, "destination".data, "proto".data,
   "protocol".data, "ip".data]

/-- The aggressive CSV heuristic `is_log_csv` (ingestor.py lines 110–118). -/
def isLogCsvCheck : PyContent → Bool
  | .text _ => false
  | .table df =>
      df.columns.any fun col =>
        logColumnIndicators.any fun ind => containsL ind (pyLower col)

/-- The classifier labels treated as logs for structured data
(ingestor.py lines 123–126). -/
def processLogTypes : List Str :=
  ["log".data, "system_log".data, "error_log".data, "application_log".data,
   "network_log".data, "security_log".data, "server_log".data,
   "audit_log".data]

/-- The low-confidence-guard marker tokens (ingestor.py lines 141–144). -/
def lowConfLogIndicators : List Str :=
  ["INFO".data, "DEBUG".data, "ERROR".data, "WARN".data, "CRITICAL".data,
   "Traceback".data, "Exception".data, "timestamp".data, "kernel".data,
   "level=".data, "msg=".data, "time=".data, "date=".data]

/-- Type resolution before the guard (ingestor.py lines 108–137): the CSV
heuristic wins, then structured data maps log-like labels to `log`, then the
classifier label is taken as-is. -/
def resolvePreGuardType (baseType : Str) (content : PyContent)
    (classificationType : Str) : Str :=
  if isLogCsvCheck content then "log".data
  else if baseType == "structured_data".data then
    if processLogTypes.contains classificationType then "log".data
    else classificationType
  else classificationType

/-- The low-confidence downgrade guard (ingestor.py lines 139–148). -/
def applyLowConfGuard (fileType : Str) (confidence : ℚ) (sample : Str) :
    Str :=
  if fileType == "log".data ∧ confidence < 3/5 then
    if !(lowConfLogIndicators.any fun ind => containsL ind sample) then
      "other_document".data
    else fileType
  else fileType

/-- The classification block of `process_file` (ingestor.py lines 86–164).
`hasClassifier`: `_get_classifier()` returned an instance; `modelLoaded`:
that instance loaded its Hugging Face pipeline. -/
def classifyPhase (hasClassifier modelLoaded : Bool)
    (zeroShot : Str → Option (Str × ℚ)) (content : PyContent)
    (baseType filename : Str) : Option PyContent × Str :=
  let sample := textToClassify content
  if hasClassifier && !sample.isEmpty then
    let cls := classify_file modelLoaded zeroShot sample filename
    (some content,
      applyLowConfGuard (resolvePreGuardType baseType content cls.1) cls.2
        sample)
  else
    (some content,
      if baseType == "unknown".data then "log".data else baseType)

/-- The extension dispatch of `process_file` (ingestor.py lines 44–84):
outer `none` = unsupported extension, inner `none` = the read raised. -/
def readResult (readTable : Str → Option DFrame)
    (readText : Str → Option Str) (filename : Str) :
    Option (Option (PyContent × Str)) :=
  let ext := extOf filename
  if ext == "csv".data then
    some ((readTable filename).map fun df =>
      (PyContent.table df, "structured_data".data))
  else if ext == "xlsx".data || ext == "xls".data then
    some ((readTable filename).map fun df =>
      (PyContent.table df, "structured_data".data))
  else if ext == "parquet".data then
    some ((readTable filename).map fun df =>
      (PyContent.table df, "structured_data".data))
  else if ext == "txt".data || ext == "log".data then
    some ((readText filename).map fun s =>
      (PyContent.text s, "unknown".data))
  else if ext == "pdf".data then
    some ((readText filename).map fun s =>
      (PyContent.text s, "unknown".data))
  else none

/-- Embedding of `process_file` (ingestor.py lines 27–164). -/
def process_file (readTable : Str → Option DFrame)
    (readText : Str → Option Str) (hasClassifier modelLoaded : Bool)
    (zeroShot : Str → Option (Str × ℚ)) (filename : Str) :
    Option PyContent × Str :=
  match readResult readTable readText filename with
  | none => (none, "unsupported".data)
  | some none => (none, "error".data)
  | some (some (content, baseType)) =>
      classifyPhase hasClassifier modelLoaded zeroShot content baseType
        filename

/-- The supported extensions, per the dispatch of `process_file`. -/
def supportedExtensions : List Str :=
  ["csv".data, "xlsx".data, "xls".data, "parquet".data, "txt".data,
   "log".data, "pdf".data]

/- ## Summarization — `src/pipeline/models/summarizer.py`

`LogSummarizer.summarize_content` builds the document string, extracts
candidate n-grams with `CountVectorizer` (abstracted as
`vectorize : Str → Option (List Str)`, `none` = `ValueError`), then selects
keywords by embedding + MMR (abstracted as
`mmrSelect : Str → List Str → Option (List Str)`, `none` = any exception in
that stage, caught by the outer handler). -/

/-- Number of lines per Python `len(s.splitlines())` (newline model). -/
def splitlinesCount (s : Str) : Nat :=
  if s.isEmpty then 0
  else (s.filter fun c => c == '\n').length +
    (if s.getLast? == some '\n' then 0 else 1)

/-- Python `s.replace("\n", " ")`. -/
def pyReplaceNl (s : Str) : Str := s.map fun c => if c == '\n' then ' ' else c

/-- `", ".join(l)`. -/
def commaJoin : List Str → Str
  | [] => []
  | [s] => s
  | s :: rest => s ++ ", ".data ++ commaJoin rest

/-- Decimal rendering of a number for the summary string. -/
def natToStr (n : Nat) : Str := (Nat.repr n).data

/-- The document string fed to keyword extraction (summarizer.py lines
74–80): a synthetic table description for DataFrames, `str(content)` else. -/
def docOf : PyContent → Str
  | .text s => s
  | .table df =>
      "Table Columns: ".data ++ commaJoin df.columns ++
        "\nData Sample:\n".data ++ df.head10Str

/-- The custom log stop words of the summarizer (summarizer.py lines
88–92). -/
def summarizerStopWords : List Str :=
  ["info".data, "debug".data, "trace".data, "warn".data, "date".data,
   "time".data, "timestamp".data, "log".data, "file".data, "path".data,
   "message".data, "level".data, "thread".data, "class".data, "start".data,
   "end".data, "completed".data, "running".data, "process".data,
   "server".data]

/-- `len(content)` for tables, `len(str(content).splitlines())` for text
(summarizer.py lines 121–125). -/
def entryCount : PyContent → Nat
  | .table df => df.nrows
  | .text s => splitlinesCount s

/-- Embedding of `summarize_content` (summarizer.py lines 63–135). -/
def summarize_content (vectorize : Str → Option (List Str))
    (mmrSelect : Str → List Str → Option (List Str))
    (content : Option PyContent) : Str :=
  match content with
  | none => []
  | some c =>
      let doc := docOf c
      if (pyStrip doc).isEmpty then []
      else
        match vectorize doc with
        | none => pyReplaceNl (doc.take 200)
        | some all_candidates =>
            let candidates := all_candidates.filter fun x =>
              !(summarizerStopWords.contains (pyLower x))
            if candidates.isEmpty then pyReplaceNl (doc.take 200)
            else
              let doc_for_embedding :=
                if 100000 < doc.length then
                  doc.take 50000 ++ doc.drop (doc.length - 50000)
                else doc
              match mmrSelect doc_for_embedding candidates with
              | none => pyReplaceNl (doc.take 500)
              | some keywords =>
                  "Total Entries: ".data ++ natToStr (entryCount c) ++
                    ". Keywords: ".data ++ commaJoin keywords

/-- Embedding of `summarize_file` (summarizer.py lines 44–61): `ingested` is
the ingestor result, `none` when `process_file` raised (that exception is
caught and yields `""`). -/
def summarize_file (vectorize : Str → Option (List Str))
    (mmrSelect : Str → List Str → Option (List Str))
    (ingested : Option (Option PyContent × Str)) : Str :=
  match ingested with
  | none => []
  | some (content, _) => summarize_content vectorize mmrSelect content

/- ## Ledger and orchestration — `src/pipeline/core/metadata.py`, `src/main.py`

`run_pipeline` lists the incoming directory, ingests and routes each file,
creates the initial `FileMaster` records (`generate_metadata_report`), and —
in "large" mode — lets the AI stage produce updates that
`update_master_report` folds back into the ledger.  `ingest f` abstracts
`ingestor.process_file` (`none` = the call raised); `newNameFor f` abstracts
the generated `f"{uuid4()}{ext}"` staging name; `pathExists` abstracts
`os.path.exists`.  Directory moves are recorded as `(source, dest)` pairs. -/

/-- One `FileMaster` row (database.py / metadata.py fields used here). -/
structure FileRecord where
  original : Str
  stored : Str
  sourceType : Str
  rawPath : Str
  finalPath : Str
  category : Str
  clusterId : Str
  summary : Str
  rowCount : Nat
  status : Str

/-- Python dict lookup over an insertion-ordered association list. -/
def lookupAssoc {α : Type} (l : List (Str × α)) (k : Str) : Option α :=
  (l.find? fun p => p.1 == k).map Prod.snd

/-- Python dict insertion: replace in place if the key exists, else append. -/
def dictInsert {α : Type} (l : List (Str × α)) (k : Str) (v : α) :
    List (Str × α) :=
  if (l.find? fun p => p.1 == k).isSome then
    l.map fun p => if p.1 == k then (k, v) else p
  else l ++ [(k, v)]

/-- `os.path.basename` on `/`-joined paths. -/
def basenameOf (p : Str) : Str := afterLast "/".data p

/-- Row count: `len(content)` for DataFrames, line count for text
(metadata.py lines 46–50). -/
def rowCountOf : PyContent → Nat
  | .table df => df.nrows
  | .text s => splitlinesCount s

/-- One initial record of `generate_metadata_report` (metadata.py lines
22–71): source/paths/status resolved from the tracking dict. -/
def initialRecord (pathExists : Str → Bool) (tracking : List (Str × Str))
    (nc : Str × PyContent) : FileRecord :=
  if containsL "API".data nc.1 then
    { original := nc.1
      stored := "N/A".data
      sourceType := "External API".data
      rawPath := "N/A".data
      finalPath := "Pending".data
      category := "Pending".data
      clusterId := "N/A".data
      summary := "N/A".data
      rowCount := rowCountOf nc.2
      status := "Success".data }
  else
    match lookupAssoc tracking nc.1 with
    | some p =>
        { original := nc.1
          stored := if pathExists p then basenameOf p else "N/A".data
          sourceType := if containsL "Email".data nc.1 then
            "Email Attachment".data else "Local Upload".data
          rawPath := p
          finalPath := "Pending".data
          category := "Pending".data
          clusterId := "N/A".data
          summary := "N/A".data
          rowCount := rowCountOf nc.2
          status := "Success".data }
    | none =>
        { original := nc.1
          stored := "N/A".data
          sourceType := "Local Upload".data
          rawPath := "N/A".data
          finalPath := "Pending".data
          category := "Pending".data
          clusterId := "N/A".data
          summary := "N/A".data
          rowCount := rowCountOf nc.2
          status := "Failed".data }

/-- Embedding of `generate_metadata_report` (happy path of the DB session):
one record per `results` entry, in insertion order. -/
def generate_metadata_report (pathExists : Str → Bool)
    (results : List (Str × PyContent)) (tracking : List (Str × Str)) :
    List FileRecord :=
  results.map (initialRecord pathExists tracking)

/-- One update produced by the AI stage (orchestrator.py lines 150–156). -/
structure AIUpdate where
  stored : Str
  category : Str
  finalPath : Str
  clusterId : Str
  summary : Str

/-- The field application of `update_master_report` (metadata.py lines
115–119): partial update plus `Status = "Processed"`. -/
def applyUpdateTo (r : FileRecord) (u : AIUpdate) : FileRecord :=
  { r with
    category := u.category
    finalPath := u.finalPath
    clusterId := u.clusterId
    summary := u.summary
    status := "Processed".data }

/-- One pass of `update_master_report` (metadata.py lines 102–120): skip a
falsy `Stored_Filename`, else apply the update to the most recently created
record carrying it. -/
def applyOneUpdate (recs : List FileRecord) (u : AIUpdate) :
    List FileRecord :=
  if u.stored.isEmpty then recs
  else
    match lastIdxWhere (fun r => r.stored == u.stored) recs with
    | none => recs
    | some i =>
        match recs[i]? with
        | none => recs
        | some r => recs.set i (applyUpdateTo r u)

/-- Embedding of `update_master_report` (metadata.py lines 90–129). -/
def update_master_report (records : List FileRecord)
    (updates : List AIUpdate) : List FileRecord :=
  updates.foldl applyOneUpdate records

/-- Directory constants of `settings.py` (relative to `BASE_DIR`). -/
def INCOMING_DIR : Str := "pipeline_data/incoming".data

def STAGING_DIR : Str := "pipeline_data/processed/staging".data

def PROCESSED_DIR : Str := "pipeline_data/processed".data

/-- `os.path.join` on the paths used here. -/
def joinPath (d f : Str) : Str := d ++ "/".data ++ f

/-- The document types routed directly to category folders
(main.py line 85). -/
def documentTypes : List Str :=
  ["cv".data, "resume".data, "invoice".data, "report".data,
   "contract".data, "other_document".data]

/-- The mutable state of the ingestion loop of `run_pipeline`
(main.py lines 45–113), with directory moves recorded explicitly. -/
structure IngestState where
  results : List (Str × PyContent)
  tracking : List (Str × Str)
  logFiles : List (Str × PyContent)
  documentFiles : List (Str × (Str × Str × Str))
  moves : List (Str × Str)

/-- One iteration of the ingestion loop (main.py lines 58–113): skip on a
raised read or a `None` content, else record the content and route by file
type — staging for logs and unknown types, category folders for documents,
the structured-data folder otherwise. -/
def ingestStep (newNameFor : Str → Str) (st : IngestState) (filename : Str)
    (outcome : Option (Option PyContent × Str)) : IngestState :=
  match outcome with
  | none => st
  | some (none, _) => st
  | some (some content, fileType) =>
      let st1 := { st with results := dictInsert st.results filename content }
      let newName := newNameFor filename
      let src := joinPath INCOMING_DIR filename
      if fileType == "log".data then
        let dest := joinPath STAGING_DIR newName
        { st1 with
          tracking := dictInsert st1.tracking filename dest
          logFiles := dictInsert st1.logFiles newName content
          moves := st1.moves ++ [(src, dest)] }
      else if documentTypes.contains fileType then
        let dest := joinPath (joinPath PROCESSED_DIR fileType) newName
        { st1 with
          documentFiles := dictInsert st1.documentFiles filename
            (fileType, dest, newName)
          moves := st1.moves ++ [(src, dest)] }
      else if fileType == "structured_data".data then
        let dest := joinPath (joinPath PROCESSED_DIR "structured_data".data)
          newName
        { st1 with moves := st1.moves ++ [(src, dest)] }
      else
        let dest := joinPath STAGING_DIR newName
        { st1 with
          tracking := dictInsert st1.tracking filename dest
          logFiles := dictInsert st1.logFiles newName content
          moves := st1.moves ++ [(src, dest)] }

/-- The ingestion loop over the listing of `incoming/`. -/
def runIngestLoop (ingest : Str → Option (Option PyContent × Str))
    (newNameFor : Str → Str) : List Str → IngestState → IngestState
  | [], st => st
  | f :: rest, st =>
      runIngestLoop ingest newNameFor rest
        (ingestStep newNameFor st f (ingest f))

/-- The empty initial state of a run. -/
def emptyIngestState : IngestState := ⟨[], [], [], [], []⟩

/-- The ledger immediately after ingestion and initial metadata (main.py
lines 115–117): records exist only when some file was read. -/
def ledgerAfterIngest (pathExists : Str → Bool)
    (ingest : Str → Option (Option PyContent × Str))
    (newNameFor : Str → Str) (files : List Str) : List FileRecord :=
  let st := runIngestLoop ingest newNameFor files emptyIngestState
  if st.results.isEmpty then []
  else generate_metadata_report pathExists st.results st.tracking

/-- The ledger after a full "large" run (main.py lines 119–133): the AI
stage's updates folded into the initial records. -/
def runPipelineLedger (pathExists : Str → Bool)
    (ingest : Str → Option (Option PyContent × Str))
    (newNameFor : Str → Str) (files : List Str)
    (updates : List AIUpdate) : List FileRecord :=
  update_master_report (ledgerAfterIngest pathExists ingest newNameFor files)
    updates

/-- Count of ledger records for one original filename. -/
def countOriginal (records : List FileRecord) (f : Str) : Nat :=
  (records.filter fun r => r.original == f).length

/-- Count of entries of an association list under one key. -/
def countKey {α : Type} (l : List (Str × α)) (k : Str) : Nat :=
  (l.filter fun p => p.1 == k).length

/-- Characterization of the domain-matching loop: it leaves the accumulator
alone when no remaining score beats it, and otherwise returns the first
entry attaining the maximum remaining score, with that score. -/
theorem bestDomainLoop_spec (text : Str) (table : List (Str × List Str))
    (b : Option Str) (hi : Nat) :
    bestDomainLoop text table (b, hi) =
      if (table.map fun p => domainScore text p.2).foldr max 0 ≤ hi then
        (b, hi)
      else
        ((table.find? fun p => domainScore text p.2 ==
            (table.map fun q => domainScore text q.2).foldr max 0).map
              Prod.fst,
          (table.map fun p => domainScore text p.2).foldr max 0) := by
  induction table generalizing b hi with
  | nil => simp [bestDomainLoop]
  | cons p rest ih =>
      obtain ⟨cat, keys⟩ := p
      simp only [bestDomainLoop, List.map_cons, List.foldr_cons, List.find?]
      by_cases hs : hi < domainScore text keys
      · rw [if_pos hs, ih]
        by_cases hMr : (rest.map fun q => domainScore text q.2).foldr max 0 ≤
            domainScore text keys
        · rw [if_pos hMr, if_neg (by omega),
            max_eq_left hMr, beq_self_eq_true]
          simp
        · rw [if_neg hMr, if_neg (by omega),
            max_eq_right (le_of_not_le hMr)]
          have : (domainScore text keys ==
              (rest.map fun q => domainScore text q.2).foldr max 0) =
              false := by
            simp only [beq_eq_false_iff_ne, ne_eq]
            omega
          rw [this]
      · rw [if_neg hs, ih]
        by_cases hMr : (rest.map fun q => domainScore text q.2).foldr max 0 ≤
            hi
        · rw [if_pos hMr, if_pos (by omega)]
        · rw [if_neg hMr, if_neg (by omega)]
          have hMM : max (domainScore text keys)
              ((rest.map fun q => domainScore text q.2).foldr max 0) =
              (rest.map fun q => domainScore text q.2).foldr max 0 := by
            omega
          have : (domainScore text keys ==
              max (domainScore text keys)
                ((rest.map fun q => domainScore text q.2).foldr max 0)) =
              false := by
            simp only [beq_eq_false_iff_ne, ne_eq]
            omega
          rw [hMM] at this
          rw [hMM, this]

/-- The domain-matching phase of `determine_category` computes exactly the
first-declared domain attaining the positive maximum hit count. -/
theorem bestDomain_eq_spec (lowText : Str) :
    (bestDomainLoop lowText DOMAIN_KEYWORDS (none, 0)).1 =
      specDomainChoice lowText := by
  rw [bestDomainLoop_spec]
  unfold specDomainChoice maxDomainScore
  by_cases hM :
      (DOMAIN_KEYWORDS.map fun p => domainScore lowText p.2).foldr max 0 = 0
  · rw [if_pos (by omega), if_pos hM]
  · rw [if_neg (by omega), if_neg hM]

/-- C5: whenever some domain keyword hits, `determine_category` returns the
domain of the `DOMAIN_KEYWORDS` table with the highest keyword-hit count,
ties resolved in favor of the first domain in table-declaration order
(`specDomainChoice` states that selection rule directly); the embedding is a
pure function of the summary string and the table, hence deterministic. -/
theorem determine_category_domain_argmax (text c : Str)
    (h : specDomainChoice (pyLower text) = some c) :
    determine_category text = c := by
  simp only [determine_category]
  rw [bestDomain_eq_spec, h]

/-- Witness for C5: a summary hitting two `system_log` keywords. -/
theorem determine_category_domain_argmax_witness :
    specDomainChoice (pyLower "Kernel panic during boot".data) =
      some "system_log".data ∧
    determine_category "Kernel panic during boot".data = "system_log".data :=
  ⟨by decide, determine_category_domain_argmax _ _ (by decide)⟩

/-- C6, counterexample: on the summary `"alpha keywords bravo"` no domain
keyword hits, the word `keywords` (without colon) is present, and the claim
as stated would tokenize only the portion after it, yielding `"bravo"`; the
code splits on the literal `"keywords:"`, which is absent, so it tokenizes
the whole text and returns `"alpha"`. -/
theorem determine_category_fallback_counterexample :
    specDomainChoice (pyLower "alpha keywords bravo".data) = none ∧
    containsL "keywords".data (pyLower "alpha keywords bravo".data) = true ∧
    determine_category "alpha keywords bravo".data = "alpha".data ∧
    claimExtractCategory (pyLower "alpha keywords bravo".data) =
      "bravo".data ∧
    "alpha".data ≠ "bravo".data :=
  ⟨by decide, by decide, by decide, by decide, by decide⟩

/-- C6, amended: when no domain keyword matches, `determine_category`
tokenizes the portion of the lowercased text after the last occurrence of the
literal marker `"keywords:"` — with colon — (or the whole text when that
marker is absent) into maximal lowercase-letter runs of length ≥ 3, strips
the fixed stop-word list, and returns the first remaining token; if no usable
token remains it returns the sentinel `"unstructured_log"`.  `dynamicExtract`
is exactly that description. -/
theorem determine_category_fallback_amended (text : Str)
    (h : specDomainChoice (pyLower text) = none) :
    determine_category text = dynamicExtract "keywords:".data (pyLower text) := by
  simp only [determine_category]
  rw [bestDomain_eq_spec, h]

/-- Witness for the amended C6 on a summary in the generated format. -/
theorem determine_category_fallback_amended_witness :
    specDomainChoice
      (pyLower "Total Entries: 4. Keywords: postgres, vacuum".data) = none ∧
    determine_category "Total Entries: 4. Keywords: postgres, vacuum".data =
      "postgres".data :=
  ⟨by decide,
    (determine_category_fallback_amended
      "Total Entries: 4. Keywords: postgres, vacuum".data (by decide)).trans
      (by decide)⟩

theorem lastIdxWhere_lt_length {α : Type} (p : α → Bool) (df : List α)
    (i : Nat) (h : lastIdxWhere p df = some i) :
    i < df.length ∧ ∃ r, df[i]? = some r ∧ p r = true := by
  induction df generalizing i with
  | nil => simp [lastIdxWhere] at h
  | cons row rest ih =>
      simp only [lastIdxWhere] at h
      cases hrest : lastIdxWhere p rest with
      | some j =>
          rw [hrest] at h
          obtain rfl : j + 1 = i := by simpa using h
          obtain ⟨hlt, r, hr, hp⟩ := ih j hrest
          exact ⟨by simp; omega, r, by simpa using hr, hp⟩
      | none =>
          rw [hrest] at h
          by_cases hp : p row
          · rw [if_pos hp] at h
            obtain rfl : 0 = i := by simpa using h
            exact ⟨by simp, row, by simp, hp⟩
          · rw [if_neg hp] at h
            cases h

theorem lastIdxWhere_ge_of_sat {α : Type} (p : α → Bool) (df : List α)
    (k : Nat) (r : α) (hk : df[k]? = some r) (hp : p r = true) :
    ∃ i, lastIdxWhere p df = some i ∧ k ≤ i := by
  induction df generalizing k with
  | nil => simp at hk
  | cons row rest ih =>
      cases k with
      | zero =>
          obtain rfl : row = r := by simpa using hk
          cases hrest : lastIdxWhere p rest with
          | some j => exact ⟨j + 1, by simp [lastIdxWhere, hrest], by omega⟩
          | none => exact ⟨0, by simp [lastIdxWhere, hrest, hp], le_refl 0⟩
      | succ k =>
          obtain ⟨i, hi, hki⟩ := ih k (by simpa using hk)
          exact ⟨i + 1, by simp [lastIdxWhere, hi], by omega⟩

/-- When the followed name occurs as `Original_Filename` strictly after row
`i`, the next match lands strictly after row `i` (the exact branch wins). -/
theorem findMatch_ge_of_any (df : List LedgerRow) (i : Nat) (next : Str)
    (hany : (df.drop (i + 1)).any (fun r => r.original == next) = true) :
    ∃ j, findMatch df next = some j ∧ i < j := by
  rw [List.any_eq_true] at hany
  obtain ⟨r, hr, hpr⟩ := hany
  obtain ⟨k, hk⟩ := List.mem_iff_get?.mp hr
  rw [List.get?_drop, List.get?_eq_getElem?] at hk
  obtain ⟨j, hj, hkj⟩ :=
    lastIdxWhere_ge_of_sat (fun r => r.original == next) df (i + 1 + k) r hk
      (by simpa using hpr)
  exact ⟨j, by simp [findMatch, hj], by omega⟩

theorem findMatch_lt_length (df : List LedgerRow) (current : Str) (i : Nat)
    (h : findMatch df current = some i) :
    i < df.length ∧ ∃ r, df[i]? = some r := by
  unfold findMatch at h
  cases hex : lastIdxWhere (fun r => r.original == current) df with
  | some j =>
      rw [hex] at h
      cases h
      obtain ⟨hlt, r, hr, _⟩ := lastIdxWhere_lt_length _ df i hex
      exact ⟨hlt, r, hr⟩
  | none =>
      rw [hex] at h
      obtain ⟨hlt, r, hr, _⟩ := lastIdxWhere_lt_length _ df i h
      exact ⟨hlt, r, hr⟩

/-- Each chain-follow step of the loop lands on a strictly later DataFrame
row, so `d` bounds the remaining steps whenever it bounds `N - i`; one unit
of fuel per loop iteration therefore suffices. -/
theorem resolveLoop_isSome_of_bound (df : List LedgerRow) (d : Nat) :
    ∀ (fuel : Nat) (current : Str) (visited : List Str)
      (finalRow : Option (Nat × LedgerRow)),
      (∀ i, findMatch df current = some i → df.length - i ≤ d) →
      d < fuel →
      (resolveLoop df fuel current visited finalRow).isSome := by
  induction d using Nat.strong_induction_on with
  | _ d ih =>
    intro fuel current visited finalRow hbound hfuel
    obtain ⟨f, rfl⟩ : ∃ f, fuel = f + 1 := ⟨fuel - 1, by omega⟩
    by_cases hv : current ∈ visited
    · simp [resolveLoop, hv]
    · cases hfm : findMatch df current with
      | none =>
          simp only [resolveLoop, hfm]
          rw [if_neg (show ¬(visited.contains current = true) by simp [hv])]
          split <;> simp
      | some i =>
          obtain ⟨hilt, r, hr⟩ := findMatch_lt_length df current i hfm
          have hd : df.length - i ≤ d := hbound i hfm
          simp only [resolveLoop, hfm, hr]
          rw [if_neg (show ¬(visited.contains current = true) by simp [hv])]
          split
          · simp
          · split
            · rename_i hna hany
              obtain ⟨j, hj, hij⟩ := findMatch_ge_of_any df i r.stored hany
              have hd1 : 1 ≤ d := by omega
              apply ih (d - 1) (by omega) f r.stored _ _ ?_ (by omega)
              intro k hk
              rw [hj] at hk
              cases hk
              omega
            · simp

/-- C3: for every input filename and every ledger state — including one whose
rename links form a cycle — `_resolve_path` terminates: fuel `N + 1` for a
ledger of `N` records is enough for the loop to exit, because each
chain-following step matches a strictly later record, so each filename is
visited at most once and at most `N` link-following steps occur. -/
theorem resolve_path_terminates (df : List LedgerRow)
    (pathExists : Str → Bool) (filename : Str) :
    (resolve_path df pathExists (df.length + 1) filename).isSome := by
  have h := resolveLoop_isSome_of_bound df df.length (df.length + 1) filename
    [] none (fun i _ => by omega) (by omega)
  unfold resolve_path
  cases hres : resolveLoop df (df.length + 1) filename [] none with
  | none => rw [hres] at h; simp at h
  | some o =>
      cases o with
      | none => simp
      | some p =>
          obtain ⟨idx, row⟩ := p
          dsimp only
          split_ifs <;> simp

/-- C2: for any input to `cluster_files` with fewer than 3 embedding vectors,
clustering is skipped (the result does not depend on HDBSCAN) and every file
in the resulting frame carries the noise label `-1`. -/
theorem cluster_files_noise_below_min (hdb : List (List ℚ) → List Int)
    (fs : List (Str × Str)) (es : List (List ℚ))
    (hlen : fs.length = es.length) (hlt : es.length < 3) :
    ∃ df, cluster_files hdb fs es = some df ∧ ∀ l ∈ df.cluster_id, l = -1 := by
  refine ⟨⟨fs.map Prod.fst, fs.map Prod.snd, List.replicate es.length (-1)⟩,
    ?_, ?_⟩
  · simp [cluster_files, mkClusterFrame, if_pos hlt, hlen]
  · intro l hl
    exact List.eq_of_mem_replicate hl

/-- Witness for C2 at a concrete input: one summary, one 1-dim vector. -/
theorem cluster_files_noise_below_min_witness :
    ∃ df, cluster_files (fun _ => [7]) [("a".data, "s".data)] [[0]] = some df ∧
      ∀ l ∈ df.cluster_id, l = -1 :=
  cluster_files_noise_below_min _ _ _ (by decide) (by decide)

/-- C10: for equal-length inputs and an HDBSCAN capability that returns one
label per point, the frame returned by `cluster_files` has exactly one row per
entry of the mapping: `file_name` and `summary` list the keys and values in
their original iteration order and there is one cluster label per row. -/
theorem cluster_files_row_alignment (hdb : List (List ℚ) → List Int)
    (hcontract : ∀ es, (hdb es).length = es.length)
    (fs : List (Str × Str)) (es : List (List ℚ))
    (hlen : fs.length = es.length) :
    ∃ df, cluster_files hdb fs es = some df ∧
      df.file_name = fs.map Prod.fst ∧
      df.summary = fs.map Prod.snd ∧
      df.cluster_id.length = fs.length := by
  by_cases h3 : es.length < 3
  · refine ⟨⟨fs.map Prod.fst, fs.map Prod.snd, List.replicate es.length (-1)⟩,
      ?_, rfl, rfl, by simp [hlen]⟩
    simp [cluster_files, mkClusterFrame, if_pos h3, hlen]
  · refine ⟨⟨fs.map Prod.fst, fs.map Prod.snd, hdb es⟩, ?_, rfl, rfl,
      by simp [hcontract, hlen]⟩
    simp [cluster_files, mkClusterFrame, if_neg h3, hlen, hcontract]

/-- Witness for C10 at a concrete input of three rows (HDBSCAN branch). -/
theorem cluster_files_row_alignment_witness :
    ∃ df, cluster_files (fun es => es.map fun _ => 0)
        [("a".data, "x".data), ("b".data, "y".data), ("c".data, "z".data)]
        [[0], [1], [2]] = some df ∧
      df.file_name = ["a".data, "b".data, "c".data] ∧
      df.summary = ["x".data, "y".data, "z".data] ∧
      df.cluster_id.length = 3 := by
  obtain ⟨df, h1, h2, h3, h4⟩ :=
    cluster_files_row_alignment (fun es => es.map fun _ => 0)
      (fun es => by simp) [("a".data, "x".data), ("b".data, "y".data),
        ("c".data, "z".data)] [[0], [1], [2]] (by decide)
  exact ⟨df, h1, h2, h3, h4⟩

/-- C9: for every file whose (lowercased) name ends in `.log` and whose
content contains at least one fast-path log marker token, `classify_file`
returns `("log", 1.0)`; the result is independent of the semantic classifier
(`zeroShot` and `modelLoaded` are arbitrary, so the model is not consulted). -/
theorem classify_file_log_fast_path (modelLoaded : Bool)
    (zeroShot : Str → Option (Str × ℚ)) (content filename : Str)
    (hext : endsWithL ".log".data (pyLower filename) = true)
    (hmark : (fastPathLogIndicators.any fun ind => containsL ind content) =
      true) :
    classify_file modelLoaded zeroShot content filename = ("log".data, 1) := by
  simp [classify_file, hext, hmark]

/-- Witness for C9: a `.LOG` file containing an `ERROR` marker, with the
semantic classifier unavailable. -/
theorem classify_file_log_fast_path_witness :
    classify_file false (fun _ => none) "ERROR: disk failure".data
      "server.LOG".data = ("log".data, 1) :=
  classify_file_log_fast_path _ _ _ _ (by decide) (by decide)

/-- C4: whenever the classification of a successfully read file resolves to
`log` with confidence strictly below `0.6` and no low-confidence marker token
occurs in the sampled text, `process_file` downgrades the file type to
`other_document`. -/
theorem process_file_low_confidence_downgrade
    (readTable : Str → Option DFrame) (readText : Str → Option Str)
    (modelLoaded : Bool) (zeroShot : Str → Option (Str × ℚ))
    (filename baseType : Str) (c : PyContent)
    (hread : readResult readTable readText filename =
      some (some (c, baseType)))
    (hsample : (textToClassify c).isEmpty = false)
    (hlog : resolvePreGuardType baseType c
      (classify_file modelLoaded zeroShot (textToClassify c) filename).1 =
      "log".data)
    (hconf :
      (classify_file modelLoaded zeroShot (textToClassify c) filename).2 <
        3/5)
    (hmark : (lowConfLogIndicators.any fun ind =>
      containsL ind (textToClassify c)) = false) :
    process_file readTable readText true modelLoaded zeroShot filename =
      (some c, "other_document".data) := by
  unfold process_file
  rw [hread]
  unfold classifyPhase
  simp only [hsample, Bool.not_false, Bool.true_and, if_pos rfl]
  rw [hlog]
  unfold applyLowConfGuard
  rw [if_pos (And.intro (by decide) hconf), hmark]
  simp

/-- Witness for C4: a `.txt` file the model labels `log file` at confidence
`0.4`, with no marker token in the text. -/
theorem process_file_low_confidence_downgrade_witness :
    process_file (fun _ => none)
      (fun _ => some "the quarterly cash flow discussion".data) true true
      (fun _ => some ("log file".data, 2/5)) "notes.txt".data =
      (some (.text "the quarterly cash flow discussion".data),
        "other_document".data) := by
  have hconf : (classify_file true (fun _ => some ("log file".data, 2/5))
      (textToClassify (.text "the quarterly cash flow discussion".data))
      "notes.txt".data).2 = 2/5 := rfl
  exact process_file_low_confidence_downgrade _ _ _ _ _ _ _ rfl (by decide)
    (by decide) (by rw [hconf]; norm_num) (by decide)

/-- `process_file` on an unsupported extension: the early
`(None, "unsupported")` return. -/
theorem process_file_unsupported_eq (readTable : Str → Option DFrame)
    (readText : Str → Option Str) (hasClassifier modelLoaded : Bool)
    (zeroShot : Str → Option (Str × ℚ)) (f : Str)
    (hext : extOf f ∉ supportedExtensions) :
    process_file readTable readText hasClassifier modelLoaded zeroShot f =
      (none, "unsupported".data) := by
  simp only [supportedExtensions, List.mem_cons, List.not_mem_nil,
    or_false] at hext
  push_neg at hext
  obtain ⟨h1, h2, h3, h4, h5, h6, h7⟩ := hext
  unfold process_file readResult
  simp [h1, h2, h3, h4, h5, h6, h7]

theorem countKey_map_replace {α : Type} (l : List (Str × α)) (k k2 : Str)
    (v : α) :
    countKey (l.map fun p => if p.1 == k then (k, v) else p) k2 =
      countKey l k2 := by
  unfold countKey
  induction l with
  | nil => rfl
  | cons p rest ih =>
      have hstep : ((if p.1 == k then (k, v) else p).1 == k2) =
          (p.1 == k2) := by
        by_cases hp : p.1 == k
        · rw [if_pos hp]
          simp only [beq_iff_eq] at hp ⊢
          rw [hp]
        · rw [if_neg hp]
      rw [List.map_cons, List.filter_cons, List.filter_cons, hstep]
      by_cases hq : (p.1 == k2) = true
      · rw [if_pos hq, if_pos hq]
        simp only [List.length_cons]
        omega
      · rw [if_neg (by simp [hq]), if_neg (by simp [hq])]
        exact ih

theorem countKey_append_single {α : Type} (l : List (Str × α)) (k k2 : Str)
    (v : α) :
    countKey (l ++ [(k, v)]) k2 =
      countKey l k2 + (if (k == k2) = true then 1 else 0) := by
  unfold countKey
  rw [List.filter_append]
  by_cases hq : (k == k2) = true
  · simp [List.filter_cons, hq]
  · simp [List.filter_cons, hq]

/-- `dictInsert` never changes the multiplicity of another key. -/
theorem countKey_dictInsert_ne {α : Type} (l : List (Str × α)) (k k2 : Str)
    (v : α) (hne : k ≠ k2) :
    countKey (dictInsert l k v) k2 = countKey l k2 := by
  unfold dictInsert
  split
  · exact countKey_map_replace l k k2 v
  · rw [countKey_append_single, if_neg (by simpa using hne)]
    simp

/-- Inserting an absent key yields multiplicity one. -/
theorem countKey_dictInsert_self {α : Type} (l : List (Str × α)) (k : Str)
    (v : α) (h0 : countKey l k = 0) :
    countKey (dictInsert l k v) k = 1 := by
  have hfind : (l.find? fun p => p.1 == k) = none := by
    rw [List.find?_eq_none]
    intro p hp hbeq
    have : p ∈ l.filter fun p => p.1 == k := List.mem_filter.mpr ⟨hp, hbeq⟩
    unfold countKey at h0
    rw [List.length_eq_zero] at h0
    rw [h0] at this
    cases this
  unfold dictInsert
  rw [hfind]
  simp only [Option.isSome_none, Bool.false_eq_true, if_false]
  rw [countKey_append_single, h0, if_pos (by simp)]

/-- The results dict after a successful-content step. -/
theorem ingestStep_results_ok (newNameFor : Str → Str) (st : IngestState)
    (f : Str) (c : PyContent) (t : Str) :
    (ingestStep newNameFor st f (some (some c, t))).results =
      dictInsert st.results f c := by
  simp only [ingestStep]
  split
  · rfl
  · split
    · rfl
    · split <;> rfl

/-- A step with a raised read or `None` content leaves the state unchanged. -/
theorem ingestStep_skip (newNameFor : Str → Str) (st : IngestState)
    (f : Str) (out : Option (Option PyContent × Str))
    (h : out = none ∨ ∃ t, out = some (none, t)) :
    ingestStep newNameFor st f out = st := by
  rcases h with rfl | ⟨t, rfl⟩ <;> rfl

/-- A step for file `g` does not change the multiplicities of `f ≠ g` in any
of the routing dicts, and every move it appends originates from `g`. -/
theorem ingestStep_other (newNameFor : Str → Str) (st : IngestState)
    (g : Str) (out : Option (Option PyContent × Str)) (f : Str)
    (hne : g ≠ f) :
    countKey (ingestStep newNameFor st g out).results f =
      countKey st.results f ∧
    countKey (ingestStep newNameFor st g out).tracking f =
      countKey st.tracking f ∧
    countKey (ingestStep newNameFor st g out).documentFiles f =
      countKey st.documentFiles f ∧
    ∀ mv ∈ (ingestStep newNameFor st g out).moves,
      mv ∈ st.moves ∨ mv.1 = joinPath INCOMING_DIR g := by
  match out with
  | none => exact ⟨rfl, rfl, rfl, fun mv h => Or.inl h⟩
  | some (none, t) => exact ⟨rfl, rfl, rfl, fun mv h => Or.inl h⟩
  | some (some c, t) =>
      simp only [ingestStep]
      split
      · refine ⟨countKey_dictInsert_ne _ _ _ _ hne,
          countKey_dictInsert_ne _ _ _ _ hne, rfl, fun mv h => ?_⟩
        rcases List.mem_append.mp h with h | h
        · exact Or.inl h
        · simp at h
          exact Or.inr (by rw [h])
      · split
        · refine ⟨countKey_dictInsert_ne _ _ _ _ hne, rfl,
            countKey_dictInsert_ne _ _ _ _ hne, fun mv h => ?_⟩
          rcases List.mem_append.mp h with h | h
          · exact Or.inl h
          · simp at h
            exact Or.inr (by rw [h])
        · split
          · refine ⟨countKey_dictInsert_ne _ _ _ _ hne, rfl, rfl,
              fun mv h => ?_⟩
            rcases List.mem_append.mp h with h | h
            · exact Or.inl h
            · simp at h
              exact Or.inr (by rw [h])
          · refine ⟨countKey_dictInsert_ne _ _ _ _ hne,
              countKey_dictInsert_ne _ _ _ _ hne, rfl, fun mv h => ?_⟩
            rcases List.mem_append.mp h with h | h
            · exact Or.inl h
            · simp at h
              exact Or.inr (by rw [h])

/-- Path joining is injective in the final component. -/
theorem joinPath_inj (d g f : Str) (h : joinPath d g = joinPath d f) :
    g = f := by
  unfold joinPath at h
  exact List.append_cancel_left h

/-- When `ingest` skips `f` (raised read or `None` content), the whole
ingestion loop leaves every piece of routing state for `f` empty. -/
theorem runIngestLoop_skip_clean
    (ingest : Str → Option (Option PyContent × Str)) (newNameFor : Str → Str)
    (f : Str)
    (hskip : ingest f = none ∨ ∃ t, ingest f = some (none, t)) :
    ∀ (names : List Str) (st : IngestState),
      countKey st.results f = 0 →
      countKey st.tracking f = 0 →
      countKey st.documentFiles f = 0 →
      (∀ mv ∈ st.moves, mv.1 ≠ joinPath INCOMING_DIR f) →
      countKey (runIngestLoop ingest newNameFor names st).results f = 0 ∧
      countKey (runIngestLoop ingest newNameFor names st).tracking f = 0 ∧
      countKey (runIngestLoop ingest newNameFor names st).documentFiles f =
        0 ∧
      ∀ mv ∈ (runIngestLoop ingest newNameFor names st).moves,
        mv.1 ≠ joinPath INCOMING_DIR f := by
  intro names
  induction names with
  | nil =>
      intro st h1 h2 h3 h4
      exact ⟨h1, h2, h3, h4⟩
  | cons g rest ih =>
      intro st h1 h2 h3 h4
      simp only [runIngestLoop]
      by_cases hg : g = f
      · subst hg
        rw [ingestStep_skip _ _ _ _ hskip]
        exact ih st h1 h2 h3 h4
      · obtain ⟨e1, e2, e3, e4⟩ :=
          ingestStep_other newNameFor st g (ingest g) f hg
        apply ih
        · rw [e1]; exact h1
        · rw [e2]; exact h2
        · rw [e3]; exact h3
        · intro mv hmv
          rcases e4 mv hmv with h | h
          · exact h4 mv h
          · rw [h]
            intro hcontra
            exact hg (joinPath_inj _ _ _ hcontra)

/-- C8: a file whose extension lies outside the supported set
`{csv, xlsx, xls, parquet, txt, log, pdf}` yields `(None, "unsupported")`
from `process_file`, and the ingestion loop of `run_pipeline` never stages
it: it appears in none of `results`, `file_tracking`, `document_files`, and
no recorded directory move has it as source. -/
theorem unsupported_file_never_staged (readTable : Str → Option DFrame)
    (readText : Str → Option Str) (hasClassifier modelLoaded : Bool)
    (zeroShot : Str → Option (Str × ℚ)) (newNameFor : Str → Str)
    (files : List Str) (f : Str)
    (hext : extOf f ∉ supportedExtensions) :
    process_file readTable readText hasClassifier modelLoaded zeroShot f =
      (none, "unsupported".data) ∧
    countKey (runIngestLoop
      (fun g => some (process_file readTable readText hasClassifier
        modelLoaded zeroShot g)) newNameFor files emptyIngestState).results
      f = 0 ∧
    countKey (runIngestLoop
      (fun g => some (process_file readTable readText hasClassifier
        modelLoaded zeroShot g)) newNameFor files emptyIngestState).tracking
      f = 0 ∧
    countKey (runIngestLoop
      (fun g => some (process_file readTable readText hasClassifier
        modelLoaded zeroShot g)) newNameFor files
        emptyIngestState).documentFiles f = 0 ∧
    ∀ mv ∈ (runIngestLoop
      (fun g => some (process_file readTable readText hasClassifier
        modelLoaded zeroShot g)) newNameFor files emptyIngestState).moves,
      mv.1 ≠ joinPath INCOMING_DIR f := by
  have hp := process_file_unsupported_eq readTable readText hasClassifier
    modelLoaded zeroShot f hext
  have hclean := runIngestLoop_skip_clean
    (fun g => some (process_file readTable readText hasClassifier
      modelLoaded zeroShot g)) newNameFor f
    (Or.inr ⟨"unsupported".data, by exact congrArg some hp⟩) files
    emptyIngestState rfl rfl
    rfl (by intro mv h; cases h)
  exact ⟨hp, hclean.1, hclean.2.1, hclean.2.2.1, hclean.2.2.2⟩

/-- Witness for C8: a run over the single file `x.bin`. -/
theorem unsupported_file_never_staged_witness :
    process_file (fun _ => none) (fun _ => none) true true (fun _ => none)
      "x.bin".data = (none, "unsupported".data) ∧
    countKey (runIngestLoop
      (fun g => some (process_file (fun _ => none) (fun _ => none) true true
        (fun _ => none) g)) (fun _ => "u0".data) ["x.bin".data]
        emptyIngestState).results "x.bin".data = 0 ∧
    countKey (runIngestLoop
      (fun g => some (process_file (fun _ => none) (fun _ => none) true true
        (fun _ => none) g)) (fun _ => "u0".data) ["x.bin".data]
        emptyIngestState).tracking "x.bin".data = 0 ∧
    countKey (runIngestLoop
      (fun g => some (process_file (fun _ => none) (fun _ => none) true true
        (fun _ => none) g)) (fun _ => "u0".data) ["x.bin".data]
        emptyIngestState).documentFiles "x.bin".data = 0 ∧
    ∀ mv ∈ (runIngestLoop
      (fun g => some (process_file (fun _ => none) (fun _ => none) true true
        (fun _ => none) g)) (fun _ => "u0".data) ["x.bin".data]
        emptyIngestState).moves,
      mv.1 ≠ joinPath INCOMING_DIR "x.bin".data :=
  unsupported_file_never_staged (fun _ => none) (fun _ => none) true true
    (fun _ => none) (fun _ => "u0".data) ["x.bin".data] "x.bin".data
    (by decide)

/-- Files not in the remaining listing leave the `results` multiplicity of
`f` untouched. -/
theorem runIngestLoop_results_of_not_mem
    (ingest : Str → Option (Option PyContent × Str)) (newNameFor : Str → Str)
    (f : Str) :
    ∀ (names : List Str) (st : IngestState), f ∉ names →
      countKey (runIngestLoop ingest newNameFor names st).results f =
        countKey st.results f := by
  intro names
  induction names with
  | nil =>
      intro st h
      rfl
  | cons g rest ih =>
      intro st h
      simp only [runIngestLoop]
      rw [ih _ (fun hr => h (List.mem_cons_of_mem g hr))]
      exact (ingestStep_other newNameFor st g (ingest g) f
        (fun he => h (he ▸ List.mem_cons_self g rest))).1

/-- A file with a successful read appears in `results` exactly once after
the loop over a duplicate-free listing containing it. -/
theorem runIngestLoop_results_once
    (ingest : Str → Option (Option PyContent × Str)) (newNameFor : Str → Str)
    (f : Str) (c : PyContent) (t : Str)
    (hok : ingest f = some (some c, t)) :
    ∀ (names : List Str) (st : IngestState), f ∈ names → names.Nodup →
      countKey st.results f = 0 →
      countKey (runIngestLoop ingest newNameFor names st).results f = 1 := by
  intro names
  induction names with
  | nil =>
      intro st h
      cases h
  | cons g rest ih =>
      intro st hmem hnodup h0
      simp only [runIngestLoop]
      by_cases hg : g = f
      · subst hg
        have hnot : g ∉ rest := (List.nodup_cons.mp hnodup).1
        rw [runIngestLoop_results_of_not_mem ingest newNameFor g rest _ hnot]
        rw [hok, ingestStep_results_ok, countKey_dictInsert_self _ _ _ h0]
      · have hmem2 : f ∈ rest := by
          rcases List.mem_cons.mp hmem with h | h
          · exact absurd h.symm hg
          · exact h
        have h02 : countKey
            (ingestStep newNameFor st g (ingest g)).results f = 0 := by
          rw [(ingestStep_other newNameFor st g (ingest g) f hg).1]
          exact h0
        exact ih _ hmem2 (List.nodup_cons.mp hnodup).2 h02

theorem initialRecord_original (pathExists : Str → Bool)
    (tracking : List (Str × Str)) (nc : Str × PyContent) :
    (initialRecord pathExists tracking nc).original = nc.1 := by
  unfold initialRecord
  split
  · rfl
  · split <;> rfl

theorem initialRecord_status (pathExists : Str → Bool)
    (tracking : List (Str × Str)) (nc : Str × PyContent) :
    (initialRecord pathExists tracking nc).status = "Success".data ∨
    (initialRecord pathExists tracking nc).status = "Failed".data := by
  unfold initialRecord
  split
  · exact Or.inl rfl
  · split
    · exact Or.inl rfl
    · exact Or.inr rfl

/-- One ledger row per `results` entry, keyed by `Original_Filename`. -/
theorem countOriginal_generate (pathExists : Str → Bool)
    (results : List (Str × PyContent)) (tracking : List (Str × Str))
    (f : Str) :
    countOriginal (generate_metadata_report pathExists results tracking) f =
      countKey results f := by
  unfold countOriginal generate_metadata_report countKey
  induction results with
  | nil => rfl
  | cons nc rest ih =>
      rw [List.map_cons, List.filter_cons, List.filter_cons]
      have hstep : ((initialRecord pathExists tracking nc).original == f) =
          (nc.1 == f) := by
        rw [initialRecord_original]
      rw [hstep]
      by_cases hq : (nc.1 == f) = true
      · rw [if_pos hq, if_pos hq]
        simp only [List.length_cons]
        omega
      · rw [if_neg (by simp [hq]), if_neg (by simp [hq])]
        exact ih

/-- Setting one row to its updated version keeps per-file multiplicities. -/
theorem countOriginal_set (recs : List FileRecord) (i : Nat) (r : FileRecord)
    (u : AIUpdate) (f : Str) (hi : recs[i]? = some r) :
    countOriginal (recs.set i (applyUpdateTo r u)) f =
      countOriginal recs f := by
  unfold countOriginal
  induction recs generalizing i with
  | nil => simp at hi
  | cons x xs ih =>
      cases i with
      | zero =>
          obtain rfl : x = r := by simpa using hi
          simp only [List.set, List.filter_cons]
          have hstep : ((applyUpdateTo x u).original == f) =
              (x.original == f) := rfl
          rw [hstep]
          by_cases hq : (x.original == f) = true
          · rw [if_pos hq, if_pos hq]
            simp only [List.length_cons]
          · rw [if_neg (by simp [hq]), if_neg (by simp [hq])]
      | succ i =>
          simp only [List.set, List.filter_cons]
          have htail := ih i (by simpa using hi)
          by_cases hq : (x.original == f) = true
          · rw [if_pos hq, if_pos hq]
            simp only [List.length_cons]
            omega
          · rw [if_neg (by simp [hq]), if_neg (by simp [hq])]
            exact htail

theorem applyOneUpdate_countOriginal (recs : List FileRecord) (u : AIUpdate)
    (f : Str) :
    countOriginal (applyOneUpdate recs u) f = countOriginal recs f := by
  unfold applyOneUpdate
  split
  · rfl
  · split
    · rfl
    · split
      · rfl
      · rename_i r hget
        exact countOriginal_set recs _ r u f hget

theorem update_master_countOriginal (updates : List AIUpdate) :
    ∀ (recs : List FileRecord) (f : Str),
      countOriginal (update_master_report recs updates) f =
        countOriginal recs f := by
  induction updates with
  | nil =>
      intro recs f
      rfl
  | cons u rest ih =>
      intro recs f
      unfold update_master_report at ih ⊢
      rw [List.foldl_cons, ih, applyOneUpdate_countOriginal]

theorem applyOneUpdate_status (recs : List FileRecord) (u : AIUpdate)
    (h : ∀ r ∈ recs, r.status = "Success".data ∨ r.status = "Failed".data ∨
      r.status = "Processed".data) :
    ∀ r ∈ applyOneUpdate recs u, r.status = "Success".data ∨
      r.status = "Failed".data ∨ r.status = "Processed".data := by
  unfold applyOneUpdate
  split
  · exact h
  · split
    · exact h
    · split
      · exact h
      · rename_i r hget
        intro x hx
        rcases List.mem_or_eq_of_mem_set hx with hmem | rfl
        · exact h x hmem
        · exact Or.inr (Or.inr rfl)

theorem update_master_status (updates : List AIUpdate) :
    ∀ (recs : List FileRecord),
      (∀ r ∈ recs, r.status = "Success".data ∨ r.status = "Failed".data ∨
        r.status = "Processed".data) →
      ∀ r ∈ update_master_report recs updates, r.status = "Success".data ∨
        r.status = "Failed".data ∨ r.status = "Processed".data := by
  induction updates with
  | nil =>
      intro recs h
      exact h
  | cons u rest ih =>
      intro recs h
      unfold update_master_report at ih ⊢
      rw [List.foldl_cons]
      exact ih _ (applyOneUpdate_status recs u h)

/-- C1, counterexample: a run whose incoming listing holds only the
unsupported file `x.bin` ends with no ledger record at all for that file —
the claim's "exactly one record with Status ∈ {Success, Failed} for every
incoming file" fails for files that are skipped before being read. -/
theorem run_pipeline_coverage_counterexample :
    "x.bin".data ∈ ["x.bin".data] ∧
    countOriginal (runPipelineLedger (fun _ => true)
      (fun g => some (process_file (fun _ => none) (fun _ => none) true true
        (fun _ => none) g))
      (fun _ => "u0".data) ["x.bin".data] []) "x.bin".data = 0 := by
  constructor
  · exact List.mem_cons_self _ _
  · rfl

/-- C1, amended: for every file of the run-start listing that is
*successfully read* (the ingestor returns content), exactly one ledger
record with that `Original_Filename` exists already in the pre-AI ledger,
with `Status ∈ {Success, Failed}`, and after the AI updates of a full run it
is still the only one, with `Status ∈ {Success, Failed, Processed}`; files
whose read raised, failed, or was unsupported get no ledger row. -/
theorem run_pipeline_ledger_coverage (pathExists : Str → Bool)
    (ingest : Str → Option (Option PyContent × Str)) (newNameFor : Str → Str)
    (files : List Str) (updates : List AIUpdate) (f : Str) (c : PyContent)
    (t : Str) (hmem : f ∈ files) (hnodup : files.Nodup)
    (hok : ingest f = some (some c, t)) :
    (countOriginal (ledgerAfterIngest pathExists ingest newNameFor files) f =
        1 ∧
      ∀ r ∈ ledgerAfterIngest pathExists ingest newNameFor files,
        r.status = "Success".data ∨ r.status = "Failed".data) ∧
    countOriginal (runPipelineLedger pathExists ingest newNameFor files
      updates) f = 1 ∧
    ∀ r ∈ runPipelineLedger pathExists ingest newNameFor files updates,
      r.status = "Success".data ∨ r.status = "Failed".data ∨
        r.status = "Processed".data := by
  have hcount1 : countKey
      (runIngestLoop ingest newNameFor files emptyIngestState).results f =
      1 :=
    runIngestLoop_results_once ingest newNameFor f c t hok files
      emptyIngestState hmem hnodup rfl
  have hnonempty :
      (runIngestLoop ingest newNameFor files emptyIngestState).results.isEmpty
        = false := by
    cases hres :
        (runIngestLoop ingest newNameFor files emptyIngestState).results with
    | nil =>
        rw [hres] at hcount1
        simp [countKey] at hcount1
    | cons a l => rfl
  have hledger : ledgerAfterIngest pathExists ingest newNameFor files =
      generate_metadata_report pathExists
        (runIngestLoop ingest newNameFor files emptyIngestState).results
        (runIngestLoop ingest newNameFor files emptyIngestState).tracking := by
    unfold ledgerAfterIngest
    rw [if_neg (by rw [hnonempty]; exact Bool.false_ne_true)]
  have hpre1 : countOriginal
      (ledgerAfterIngest pathExists ingest newNameFor files) f = 1 := by
    rw [hledger, countOriginal_generate]
    exact hcount1
  have hpre2 : ∀ r ∈ ledgerAfterIngest pathExists ingest newNameFor files,
      r.status = "Success".data ∨ r.status = "Failed".data := by
    rw [hledger]
    intro r hr
    obtain ⟨nc, _, rfl⟩ := List.mem_map.mp hr
    exact initialRecord_status pathExists _ nc
  refine ⟨⟨hpre1, hpre2⟩, ?_, ?_⟩
  · unfold runPipelineLedger
    rw [update_master_countOriginal]
    exact hpre1
  · unfold runPipelineLedger
    apply update_master_status
    intro r hr
    rcases hpre2 r hr with h | h
    · exact Or.inl h
    · exact Or.inr (Or.inl h)

/-- Witness for the amended C1: a one-file run of a log file, no updates. -/
theorem run_pipeline_ledger_coverage_witness :
    (countOriginal (ledgerAfterIngest (fun _ => true)
        (fun _ => some (some (.text "INFO boot".data), "log".data))
        (fun _ => "u1.log".data) ["a.log".data]) "a.log".data = 1 ∧
      ∀ r ∈ ledgerAfterIngest (fun _ => true)
        (fun _ => some (some (.text "INFO boot".data), "log".data))
        (fun _ => "u1.log".data) ["a.log".data],
        r.status = "Success".data ∨ r.status = "Failed".data) ∧
    countOriginal (runPipelineLedger (fun _ => true)
      (fun _ => some (some (.text "INFO boot".data), "log".data))
      (fun _ => "u1.log".data) ["a.log".data] []) "a.log".data = 1 ∧
    ∀ r ∈ runPipelineLedger (fun _ => true)
      (fun _ => some (some (.text "INFO boot".data), "log".data))
      (fun _ => "u1.log".data) ["a.log".data] [],
      r.status = "Success".data ∨ r.status = "Failed".data ∨
        r.status = "Processed".data :=
  run_pipeline_ledger_coverage (fun _ => true)
    (fun _ => some (some (.text "INFO boot".data), "log".data))
    (fun _ => "u1.log".data) ["a.log".data] [] "a.log".data
    (.text "INFO boot".data) "log".data (List.mem_cons_self _ _)
    (by decide) rfl

theorem pyReplaceNl_take_ne_nil (s : Str) (n : Nat) (hs : s ≠ [])
    (hn : 0 < n) : pyReplaceNl (s.take n) ≠ [] := by
  cases s with
  | nil => exact absurd rfl hs
  | cons a l =>
      cases n with
      | zero => exact absurd hn (Nat.lt_irrefl 0)
      | succ n => simp [pyReplaceNl]

theorem ne_nil_of_pyStrip_ne (s : Str) (h : (pyStrip s).isEmpty = false) :
    s ≠ [] := by
  intro heq
  subst heq
  simp [pyStrip] at h

set_option maxRecDepth 4000 in
/-- C7, counterexample: on a 300-character document with no word tokens
(`CountVectorizer` raises its empty-vocabulary `ValueError` on such input),
`summarize_content` returns only the first 200 characters — not the first
~500 characters the claim promises (which here would be the whole
300-character document). -/
theorem summarize_truncation_counterexample :
    summarize_content (fun _ => none) (fun _ _ => none)
      (some (.text (List.replicate 300 '.'))) = List.replicate 200 '.' ∧
    pyReplaceNl ((List.replicate 300 '.' : Str).take 500) =
      List.replicate 300 '.' ∧
    (List.replicate 200 '.' : Str) ≠ List.replicate 300 '.' := by
  refine ⟨by decide, by decide, by decide⟩

/-- C7, amended: `summarize_content` never raises (it is a total function of
its abstracted capabilities) and degrades on internal failure to a flattened
prefix of the document — 200 characters when candidate extraction fails or
yields nothing, 500 characters when the embedding/MMR stage fails — and for
non-blank content its result is never empty. -/
theorem summarize_degrades_gracefully (vectorize : Str → Option (List Str))
    (mmrSelect : Str → List Str → Option (List Str)) (c : PyContent)
    (hne : (pyStrip (docOf c)).isEmpty = false) :
    (vectorize (docOf c) = none →
      summarize_content vectorize mmrSelect (some c) =
        pyReplaceNl ((docOf c).take 200)) ∧
    (∀ cands, vectorize (docOf c) = some cands →
      (cands.filter fun x =>
        !(summarizerStopWords.contains (pyLower x))).isEmpty = true →
      summarize_content vectorize mmrSelect (some c) =
        pyReplaceNl ((docOf c).take 200)) ∧
    (∀ cands, vectorize (docOf c) = some cands →
      (cands.filter fun x =>
        !(summarizerStopWords.contains (pyLower x))).isEmpty = false →
      mmrSelect (if 100000 < (docOf c).length then
          (docOf c).take 50000 ++ (docOf c).drop ((docOf c).length - 50000)
        else docOf c)
        (cands.filter fun x =>
          !(summarizerStopWords.contains (pyLower x))) = none →
      summarize_content vectorize mmrSelect (some c) =
        pyReplaceNl ((docOf c).take 500)) ∧
    summarize_content vectorize mmrSelect (some c) ≠ [] := by
  have hdoc : docOf c ≠ [] := ne_nil_of_pyStrip_ne _ hne
  have hcond : ¬((pyStrip (docOf c)).isEmpty = true) := by
    rw [hne]
    exact Bool.false_ne_true
  refine ⟨?_, ?_, ?_, ?_⟩
  · intro hv
    simp only [summarize_content]
    rw [if_neg hcond, hv]
  · intro cands hv hflt
    simp only [summarize_content]
    rw [if_neg hcond, hv]
    simp only [hflt, if_true]
  · intro cands hv hflt hmmr
    simp only [summarize_content]
    rw [if_neg hcond, hv]
    simp only [hflt, Bool.false_eq_true, if_false]
    rw [hmmr]
  · simp only [summarize_content]
    rw [if_neg hcond]
    cases hv : vectorize (docOf c) with
    | none => exact pyReplaceNl_take_ne_nil _ 200 hdoc (by omega)
    | some cands =>
        by_cases hflt : (cands.filter fun x =>
            !(summarizerStopWords.contains (pyLower x))).isEmpty = true
        · simp only [hflt, if_true]
          exact pyReplaceNl_take_ne_nil _ 200 hdoc (by omega)
        · simp only [Bool.not_eq_true] at hflt
          simp only [hflt, Bool.false_eq_true, if_false]
          cases hmmr : mmrSelect (if 100000 < (docOf c).length then
              (docOf c).take 50000 ++
                (docOf c).drop ((docOf c).length - 50000)
            else docOf c)
            (cands.filter fun x =>
              !(summarizerStopWords.contains (pyLower x))) with
          | none => exact pyReplaceNl_take_ne_nil _ 500 hdoc (by omega)
          | some keywords => simp

/-- Witness for the amended C7: a failing vectorizer over short text. -/
theorem summarize_degrades_gracefully_witness :
    summarize_content (fun _ => none) (fun _ _ => none)
      (some (.text "hello world".data)) =
      pyReplaceNl ((docOf (.text "hello world".data)).take 200) ∧
    summarize_content (fun _ => none) (fun _ _ => none)
      (some (.text "hello world".data)) ≠ [] :=
  ⟨(summarize_degrades_gracefully (fun _ => none) (fun _ _ => none)
      (.text "hello world".data) (by decide)).1 rfl,
    (summarize_degrades_gracefully (fun _ => none) (fun _ _ => none)
      (.text "hello world".data) (by decide)).2.2.2⟩
